import Mathlib

/-!
Shallow embedding of `src/build.js` from NodeFactoryIo/snaps-cli.

Bundle text is modelled as `List Char`.  Every JS string operation used by
`postProcess` (lines 101-165) and `writeError` (lines 175-188) is modelled as
an executable function on `List Char`.  Recursive functions take explicit fuel
as a structurally decreasing argument so that all definitions reduce inside
the kernel (`rfl` / `decide`); the top-level wrappers supply fuel that is
provably generous for the recursion depth involved.
-/

abbrev Str := List Char

/-- Member of the JS `\w` (and `\d`) character class: ASCII letters, digits, underscore. -/
def isWordChar (c : Char) : Bool := c.isAlphanum || c = '_'

/-- ECMAScript line terminators: LF, CR, LINE SEPARATOR, PARAGRAPH SEPARATOR. -/
def isLineTerminator (c : Char) : Bool :=
  c = '\n' || c = '\r' || c = Char.ofNat 8232 || c = Char.ofNat 8233

/-- Characters removed by JS `String.prototype.trim`: whitespace
(space, tab, VT, FF, NBSP, BOM) and line terminators. -/
def jsWhitespaceChar (c : Char) : Bool :=
  c = ' ' || c = '\t' || isLineTerminator c ||
  c = Char.ofNat 11 || c = Char.ofNat 12 || c = Char.ofNat 160 || c = Char.ofNat 65279

/-- `bundleString.trim()` (src/build.js line 107). -/
def trimStr (s : Str) : Str :=
  ((s.dropWhile jsWhitespaceChar).reverse.dropWhile jsWhitespaceChar).reverse

/-- Leftmost non-overlapping global replacement of the literal pattern `p` by `r`,
as performed by JS `String.prototype.replace` with a `/g` regex whose pattern is a
literal string: scan left to right, on a match emit `r` and continue after the
match (the emitted replacement is never rescanned), otherwise keep one character.
Fuel-based so that it reduces in the kernel; each step consumes at least one
character, so the fuel supplied by `replaceAllL` never runs out. -/
def goRepl (p r : Str) : Nat → Str → Str
  | 0, s => s
  | _ + 1, [] => []
  | fuel + 1, c :: s =>
    if p.isPrefixOf (c :: s) then r ++ goRepl p r fuel ((c :: s).drop p.length)
    else c :: goRepl p r fuel s

def replaceAllL (p r s : Str) : Str := goRepl p r (s.length + 1) s

/-- JS `String.prototype.replace` with a plain STRING pattern: only the first
occurrence is replaced. -/
def goReplFirst (p r : Str) : Nat → Str → Str
  | 0, s => s
  | _ + 1, [] => []
  | fuel + 1, c :: s =>
    if p.isPrefixOf (c :: s) then r ++ (c :: s).drop p.length
    else c :: goReplFirst p r fuel s

def replaceFirst (p r s : Str) : Str := goReplFirst p r (s.length + 1) s

/-- Minimal regular-expression AST covering exactly the constructs appearing in
the two `eval` regexes of `postProcess`: character classes, concatenation,
alternation (for `?`), greedy star and the word boundary `\b`. -/
inductive RE where
  | eps
  | cls (p : Char → Bool)
  | cat (a b : RE)
  | alt (a b : RE)
  | star (r : RE)
  | wb

def wordCharAt (s : Str) (i : Nat) : Bool :=
  match s.drop i with
  | c :: _ => isWordChar c
  | [] => false

/-- JS `\b`: holds at a position iff exactly one of the two neighbouring
characters (out of range counts as non-word) is a word character. -/
def wordBoundaryAt (s : Str) (i : Nat) : Bool :=
  (if i = 0 then false else wordCharAt s (i - 1)) != wordCharAt s i

/-- Backtracking matcher: the list of candidate match end positions for `re` at
position `i` of `s`, in the JS engine's preference order (the head is the match
JS commits to).  `cat` tries continuations in order, `alt` prefers its left arm,
greedy `star` explores longer iteration counts first and every iteration must
make progress (as in JS, where an iteration matching the empty string ends the
loop).  Fuel bounds the recursion depth only; callers supply fuel that is
generous for the small patterns used here. -/
def reMatch (s : Str) : Nat → RE → Nat → List Nat
  | 0, _, _ => []
  | fuel + 1, re, i =>
    match re with
    | .eps => [i]
    | .wb => if wordBoundaryAt s i then [i] else []
    | .cls p =>
      match s.drop i with
      | c :: _ => if p c then [i + 1] else []
      | [] => []
    | .cat a b => (reMatch s fuel a i).flatMap fun j => reMatch s fuel b j
    | .alt a b => reMatch s fuel a i ++ reMatch s fuel b i
    | .star r =>
      (((reMatch s fuel r i).filter fun j => i < j).flatMap fun j =>
        reMatch s fuel (.star r) j) ++ [i]

/-- One left-to-right pass of JS `String.prototype.replace` with a `/g` regex:
at each position of the ORIGINAL string, if the regex matches, emit `repl`
applied to the matched substring and resume after the match; otherwise keep the
character.  Replacements are never rescanned. -/
def reReplaceGo (s : Str) (re : RE) (repl : Str → Str) : Nat → Nat → Str
  | 0, i => s.drop i
  | fuel + 1, i =>
    match s.drop i with
    | [] => []
    | c :: _ =>
      match (reMatch s (2 * s.length + 64) re i).head? with
      | some j =>
        if i < j then repl ((s.drop i).take (j - i)) ++ reReplaceGo s re repl fuel j
        else c :: reReplaceGo s re repl fuel (i + 1)
      | none => c :: reReplaceGo s re repl fuel (i + 1)

def reReplaceAll (re : RE) (repl : Str → Str) (s : Str) : Str :=
  reReplaceGo s re repl (s.length + 1) 0

def reLit (c : Char) : RE := .cls fun d => d = c

def reStr : Str → RE
  | [] => .eps
  | c :: cs => .cat (reLit c) (reStr cs)

def reOpt (r : RE) : RE := .alt r .eps

def rePlus (r : RE) : RE := .cat r (.star r)

def evalWord : Str := "eval".toList

/-- One unit `\b[\w\d]*[\]\)]?\.` of the dotted chain in the line 117-120 regex. -/
def evalUnit : RE :=
  .cat .wb (.cat (.star (.cls isWordChar))
    (.cat (reOpt (.cls fun c => c = ']' || c = ')')) (reLit '.')))

/-- `\([^)]*\)`: a parenthesized argument list with no `)` inside. -/
def parenArgs : RE :=
  .cat (reLit '(') (.cat (.star (.cls fun c => !(c = ')'))) (reLit ')'))

/-- The line 117-120 regex `((?:\b[\w\d]*[\]\)]?\.)+eval)(\([^)]*\))`. -/
def evalChainRE : RE := .cat (rePlus evalUnit) (.cat (reStr evalWord) parenArgs)

/-- The line 125 regex `(\b)(eval)(\([^)]*\))`. -/
def evalBareRE : RE := .cat .wb (.cat (reStr evalWord) parenArgs)

/-- Replacement `(1, $1)$2` of line 119.  Group 1 is the chain up to and
including `eval`; group 2 starts at the first `(` of the match (the chain part
cannot contain `(`, and group 2 always begins with one). -/
def evalChainRepl (m : Str) : Str :=
  let k := m.findIdx fun c => c = '('
  "(1, ".toList ++ m.take k ++ ")".toList ++ m.drop k

/-- Replacement `$1(1, $2)$3` of line 125; `$1` is the empty `\b` capture and
`$2` is the literal `eval` (4 characters). -/
def evalBareRepl (m : Str) : Str := "(1, eval)".toList ++ m.drop 4

def dropLineComment (s : Str) : Str := s.dropWhile fun c => !(c = '\n')

def dropBlockComment : Nat → Str → Str
  | 0, s => s
  | _ + 1, [] => []
  | _ + 1, '*' :: '/' :: rest => rest
  | fuel + 1, _ :: rest => dropBlockComment fuel rest

def backtickChar : Char := Char.ofNat 96

/-- Modelled from the spec: the comment-stripping collaborator
(`@nodefactory/strip-comments`, line 1), whose source is not part of this
repository.  The spec defines it as: delete `//...` line comments and
`/*...*/` block comments from JavaScript-like source, respecting string
literals.  State `none` is ordinary code; `some q` is inside a string literal
opened by quote `q` (double quote, single quote or backtick), in which a
backslash escapes the following character.  Line comments end before the
newline (which is kept); block comments end after `*/`. -/
def stripRun : Nat → Option Char → Str → Str
  | 0, _, s => s
  | _ + 1, _, [] => []
  | fuel + 1, none, '/' :: '/' :: rest => stripRun fuel none (dropLineComment rest)
  | fuel + 1, none, '/' :: '*' :: rest =>
    stripRun fuel none (dropBlockComment (rest.length + 1) rest)
  | fuel + 1, none, c :: rest =>
    if c = '"' || c = '\'' || c = backtickChar then c :: stripRun fuel (some c) rest
    else c :: stripRun fuel none rest
  | fuel + 1, some q, '\\' :: c :: rest => '\\' :: c :: stripRun fuel (some q) rest
  | fuel + 1, some q, c :: rest =>
    if c = q then c :: stripRun fuel none rest else c :: stripRun fuel (some q) rest

def stripCommentsModel (s : Str) : Str := stripRun (s.length + 1) none s

def importPat : Str := ".import(".toList

def importRepl : Str := "[\"import\"](".toList

/-- Line 114: `.import(` → `["import"](` (global, literal). -/
def importStep (s : Str) : Str := replaceAllL importPat importRepl s

/-- Lines 117-120: `stuff.eval(otherStuff)` → `(1, stuff.eval)(otherStuff)`. -/
def evalChainStep (s : Str) : Str := reReplaceAll evalChainRE evalChainRepl s

/-- Line 125: `eval(stuff)` → `(1, eval)(stuff)`. -/
def evalBareStep (s : Str) : Str := reReplaceAll evalBareRE evalBareRepl s

def htmlOpenPat : Str := "<!--".toList

def htmlOpenRepl : Str := "< !--".toList

def htmlClosePat : Str := "-->".toList

def htmlCloseRepl : Str := "-- >".toList

/-- Line 130: `<!--` → `< !--` (global, literal). -/
def htmlOpenStep (s : Str) : Str := replaceAllL htmlOpenPat htmlOpenRepl s

/-- Line 131: `-->` → `-- >` (global, literal). -/
def htmlCloseStep (s : Str) : Str := replaceAllL htmlClosePat htmlCloseRepl s

/-- Lines 127-131: the HTML-comment disambiguation rule (rule 4 of the spec),
i.e. both replacements in their source order. -/
def htmlCommentStep (s : Str) : Str := htmlCloseStep (htmlOpenStep s)

def bufferLinePat : Str := "(function (Buffer)\x7b".toList

def bufferLineRepl : Str := "(function ()\x7b".toList

def openBraceChar : Char := Char.ofNat 123

def atLineStart : Option Char → Bool
  | none => true
  | some c => isLineTerminator c

def lineEndOk : Str → Bool
  | [] => true
  | c :: _ => isLineTerminator c

/-- Line 136: `/^\(function \(Buffer\)\{$/gm` → `(function (){`.  With the `m`
flag, `^` matches at the string start or right after a line terminator and `$`
at the string end or right before one, so the pattern matches exactly the
maximal lines whose text is `(function (Buffer){`.  `prev` is the character
before the current position (`none` at the string start). -/
def bufferGo : Nat → Option Char → Str → Str
  | 0, _, s => s
  | _ + 1, _, [] => []
  | fuel + 1, prev, c :: rest =>
    if atLineStart prev && bufferLinePat.isPrefixOf (c :: rest) &&
        lineEndOk ((c :: rest).drop bufferLinePat.length) then
      bufferLineRepl ++ bufferGo fuel (some openBraceChar) ((c :: rest).drop bufferLinePat.length)
    else c :: bufferGo fuel (some c) rest

def bufferStep (s : Str) : Str := bufferGo (s.length + 1) none s

def stdlibWord : Str := "stdlib".toList

/-- Line 159: `bundleString.replace(/stdlib./g, '')`.  The dot in the regex is
unescaped, so the pattern is the literal `stdlib` followed by ANY character
other than a line terminator (not only a literal dot); a position where
`stdlib` is at the end of the text or followed by a line terminator does not
match, and the scan resumes one character further. -/
def stdlibGo : Nat → Str → Str
  | 0, s => s
  | _ + 1, [] => []
  | fuel + 1, c :: rest =>
    if stdlibWord.isPrefixOf (c :: rest) then
      match (c :: rest).drop stdlibWord.length with
      | d :: rest2 =>
        if isLineTerminator d then c :: stdlibGo fuel rest else stdlibGo fuel rest2
      | [] => c :: stdlibGo fuel rest
    else c :: stdlibGo fuel rest

def stdlibStep (s : Str) : Str := stdlibGo (s.length + 1) s

def selfPat : Str := "self".toList

def windowWord : Str := "window".toList

/-- Line 156: `bundleString.replace(/self/g, "window")` — a plain substring
replacement, with no word-boundary anchors in the regex. -/
def selfStep (s : Str) : Str := replaceAllL selfPat windowWord s

def setImmediatePat : Str := "setImmediate(() => resultCb(result))".toList

def setImmediateRepl : Str := "resultCb(result)".toList

/-- Line 162: `bundleString.replace("setImmediate(() => resultCb(result))",
"resultCb(result)")` — a STRING pattern, so JS replaces only the first
occurrence. -/
def setImmediateStep (s : Str) : Str := replaceFirst setImmediatePat setImmediateRepl s

/-- Substring containment, as JS `indexOf(p) !== -1`: `p` is a prefix of some
suffix of `s`. -/
def containsSub (p s : Str) : Bool := s.tails.any fun t => p.isPrefixOf t

def regeneratorWord : Str := "regeneratorRuntime".toList

def regeneratorDecl : Str := "var regeneratorRuntime;\n".toList

/-- Lines 152-154: prepend `var regeneratorRuntime;` when the text mentions
`regeneratorRuntime` anywhere. -/
def regeneratorStep (s : Str) : Str :=
  if containsSub regeneratorWord s then regeneratorDecl ++ s else s

def endsWithChar (c : Char) (s : Str) : Bool :=
  match s.getLast? with
  | some d => d = c
  | none => false

def startsWithChar (c : Char) (s : Str) : Bool :=
  match s with
  | d :: _ => d = c
  | [] => false

def arrowParen : Str := "() => ".toList

def arrowOpen : Str := "() => (\n".toList

def arrowClose : Str := "\n)".toList

/-- Lines 142-148: wrap the bundle in an anonymous function.  A single trailing
`;` is dropped first; if the result both starts with `(` and ends with `)` it
is prefixed with `() => `, otherwise it is wrapped as `() => (\n...\n)`. -/
def wrapStep (s : Str) : Str :=
  let t := if endsWithChar ';' s then s.dropLast else s
  if startsWithChar '(' t && endsWithChar ')' t then arrowParen ++ t
  else arrowOpen ++ t ++ arrowClose

structure PPOptions where
  stripComments : Bool

def emptyBundleMsg : Str := "Bundled code is empty after postprocessing.".toList

/-- Lines 103-136 of `postProcess`: trim, optional comment stripping, then the
ordered substitutions (`.import(`, the two `eval` rewrites, the two HTML-comment
disambiguations, the Buffer-parameter line) — everything before the emptiness
check of line 138. -/
def preWrap (opts : PPOptions) (s : Str) : Str :=
  bufferStep (htmlCloseStep (htmlOpenStep (evalBareStep (evalChainStep (importStep
    (if opts.stripComments then stripCommentsModel (trimStr s) else trimStr s))))))

/-- Lines 142-164 of `postProcess`: wrapping followed by the post-wrap patches
(regeneratorRuntime declaration, `self` → `window`, the stdlib patch, the
setImmediate patch), in source order. -/
def postWrap (s : Str) : Str :=
  setImmediateStep (stdlibStep (selfStep (regeneratorStep (wrapStep s))))

/-- `postProcess` (lines 101-165).  A non-string input (`none`) returns null
immediately; the line 138-140 `throw` is modelled as `Except.error` with the
source message. -/
def postProcess (bundleString : Option Str) (opts : PPOptions) : Except Str (Option Str) :=
  match bundleString with
  | none => .ok none
  | some s =>
    let t := preWrap opts s
    if t.length = 0 then .error emptyBundleMsg else .ok (some (postWrap t))

/-- The observable effects of one `writeError` call (lines 175-188), as data:
the message handed to `logError`, the error object handed along with it, the
path whose unlink is attempted (if any), and whether the process exits
(`!snaps.isWatching`; the watch flag is passed explicitly). -/
structure ErrorReport where
  loggedMessage : Str
  loggedErr : Option Str
  unlinkAttempted : Option Str
  exits : Bool

/-- `writeError(prefix, msg, err, destFilePath)` (lines 175-188): a space is
appended to the prefix when missing, `prefix + msg` is logged together with
`err`, the unlink is attempted only when `destFilePath` is truthy (defined and
non-empty), and the process exits unless watching. -/
def writeError (pfx msg : Str) (err : Option Str) (destFilePath : Option Str)
    (isWatching : Bool) : ErrorReport :=
  let p := if endsWithChar ' ' pfx then pfx else pfx ++ " ".toList
  { loggedMessage := p ++ msg
    loggedErr := err
    unlinkAttempted :=
      match destFilePath with
      | some d => if d.isEmpty then none else some d
      | none => none
    exits := !isWatching }

def buildErrorPfx : Str := "Build error:".toList

def writeErrorPfx : Str := "Write error:".toList

/-- Line 36: inside `bundle`, the browserify callback on a build error runs
`writeError('Build error:', err)`.  Only two arguments are passed: `msg` is the
error itself, while the `err` and `destFilePath` parameters of `writeError`
stay undefined, even though `dest` is in scope in the enclosing `bundle` call
(kept here as the unused `_dest` to record that fact). -/
def bundleOnBuildError (_dest err : Str) (isWatching : Bool) : ErrorReport :=
  writeError buildErrorPfx err none none isWatching

/-- Line 52: the write-failure path runs
`writeError('Write error:', err.message, err, dest)` — here the destination
path IS passed. -/
def bundleOnWriteError (dest errMsg err : Str) (isWatching : Bool) : ErrorReport :=
  writeError writeErrorPfx errMsg (some err) (some dest) isWatching

/-!
Helper lemmas about `goRepl`, used for the idempotence of the HTML-comment
disambiguation rule and for identity-when-absent facts.
-/

/-- A prefix of an append is a prefix of the left part or extends it. -/
theorem pfxAppendCases : ∀ {a : Str} {b v : Str}, v <+: a ++ b →
    v <+: a ∨ ∃ w, v = a ++ w ∧ w <+: b := by
  intro a
  induction a with
  | nil =>
    intro b v h
    exact Or.inr ⟨v, rfl, by simpa using h⟩
  | cons x a' ih =>
    intro b v h
    match v with
    | [] => exact Or.inl List.nil_prefix
    | y :: v' =>
      rw [List.cons_append, List.cons_prefix_cons] at h
      obtain ⟨rfl, h'⟩ := h
      rcases ih h' with h1 | ⟨w, rfl, hw⟩
      · exact Or.inl (List.cons_prefix_cons.mpr ⟨rfl, h1⟩)
      · exact Or.inr ⟨w, rfl, hw⟩

/-- An infix of an append lies in the left part, in the right part, or crosses
the junction as a nonempty suffix of the left glued to a nonempty prefix of the
right. -/
theorem infixAppendCases : ∀ {a : Str} {b p : Str}, p ≠ [] → p <:+: a ++ b →
    p <:+: a ∨ p <:+: b ∨
      ∃ u v, p = u ++ v ∧ u ≠ [] ∧ v ≠ [] ∧ u <:+ a ∧ v <+: b := by
  intro a
  induction a with
  | nil =>
    intro b p _ h
    exact Or.inr (Or.inl (by simpa using h))
  | cons x a' ih =>
    intro b p hp h
    rw [List.cons_append, List.infix_cons_iff] at h
    rcases h with h | h
    · match p, hp with
      | y :: p', _ =>
        rw [List.cons_prefix_cons] at h
        obtain ⟨rfl, h'⟩ := h
        rcases pfxAppendCases h' with h1 | ⟨w, hEq, hw⟩
        · exact Or.inl (List.IsPrefix.isInfix (List.cons_prefix_cons.mpr ⟨rfl, h1⟩))
        · by_cases hw0 : w = []
          · subst hw0
            rw [List.append_nil] at hEq
            subst hEq
            exact Or.inl (List.infix_rfl)
          · refine Or.inr (Or.inr ⟨y :: a', w, ?_, by simp, hw0, List.suffix_refl _, hw⟩)
            rw [hEq, List.cons_append]
    · rcases ih hp h with h1 | h1 | ⟨u, v, hEq, hu0, hv0, hu, hv⟩
      · exact Or.inl (h1.trans (List.suffix_cons x a').isInfix)
      · exact Or.inr (Or.inl h1)
      · exact Or.inr (Or.inr ⟨u, v, hEq, hu0, hv0, hu.trans (List.suffix_cons x a'), hv⟩)

/-- If no nonempty suffix of `q` extends `r` (`h1`) and every nonempty suffix
of `q` that is a prefix of `r` is also a prefix of `p` (`h2`), then any
nonempty suffix of `q` that is a prefix of the output of `goRepl p r` was
already a prefix of the input. -/
theorem goReplPfxInv (p r q : Str) (_hp : p ≠ [])
    (h1 : ∀ v ∈ q.tails, v ≠ [] → ¬ r <+: v)
    (h2 : ∀ v ∈ q.tails, v ≠ [] → v <+: r → v <+: p) :
    ∀ fuel t v, v ∈ q.tails → v ≠ [] → v <+: goRepl p r fuel t → v <+: t := by
  intro fuel
  induction fuel with
  | zero =>
    intro t v _ _ hpre
    simpa [goRepl] using hpre
  | succ n ih =>
    intro t v hvq hv hpre
    match t with
    | [] => simpa [goRepl] using hpre
    | c :: t' =>
      by_cases hm : p.isPrefixOf (c :: t') = true
      · rw [goRepl, if_pos hm] at hpre
        rcases pfxAppendCases hpre with hvr | ⟨w, hvw, _⟩
        · exact (h2 v hvq hv hvr).trans (List.isPrefixOf_iff_prefix.mp hm)
        · exact absurd (hvw ▸ List.prefix_append r w) (h1 v hvq hv)
      · rw [goRepl, if_neg hm] at hpre
        match v, hv with
        | d :: v', _ =>
          rw [List.cons_prefix_cons] at hpre
          obtain ⟨rfl, hv'⟩ := hpre
          by_cases hv0 : v' = []
          · subst hv0
            exact List.cons_prefix_cons.mpr ⟨rfl, List.nil_prefix⟩
          · have hv'q : v' ∈ q.tails := by
              rw [List.mem_tails] at hvq ⊢
              exact (List.suffix_cons d v').trans hvq
            exact List.cons_prefix_cons.mpr ⟨rfl, ih t' v' hv'q hv0 hv'⟩

/-- The output of `goRepl p r` contains no occurrence of `p`, provided the
pattern and replacement satisfy the junction conditions `h1`-`h4` (all
decidable for concrete strings). -/
theorem goReplNoOccur (p r : Str) (hp : p ≠ [])
    (h1 : ∀ v ∈ p.tails, v ≠ [] → ¬ r <+: v)
    (h2 : ∀ v ∈ p.tails, v ≠ [] → v <+: r → v <+: p)
    (h3 : ¬ p <:+: r)
    (h4 : ∀ u ∈ r.tails, u ≠ [] → u <+: p → u = p) :
    ∀ fuel t, t.length ≤ fuel → ¬ p <:+: goRepl p r fuel t := by
  intro fuel
  induction fuel with
  | zero =>
    intro t hlen h
    have ht : t = [] := List.length_eq_zero.mp (Nat.le_zero.mp hlen)
    subst ht
    exact hp (by simpa [goRepl] using h)
  | succ n ih =>
    intro t hlen h
    match t with
    | [] => exact hp (by simpa [goRepl] using h)
    | c :: t' =>
      by_cases hm : p.isPrefixOf (c :: t') = true
      · rw [goRepl, if_pos hm] at h
        rcases infixAppendCases hp h with hr | hX | ⟨u, v, hEq, hu0, hv0, hu, _⟩
        · exact h3 hr
        · refine ih _ ?_ hX
          have h1p : 1 ≤ p.length := List.length_pos.mpr hp
          have := hlen
          simp only [List.length_cons] at this
          simp only [List.length_drop, List.length_cons]
          omega
        · have hupfx : u <+: p := hEq ▸ List.prefix_append u v
          have huq := h4 u ((List.mem_tails _ _).mpr hu) hu0 hupfx
          subst huq
          exact hv0 (List.self_eq_append_right.mp hEq)
      · rw [goRepl, if_neg hm] at h
        rcases List.infix_cons_iff.mp h with hpre | hX
        · have hpe : p <+: goRepl p r (n + 1) (c :: t') := by
            rw [goRepl, if_neg hm]
            exact hpre
          have := goReplPfxInv p r p hp h1 h2 (n + 1) (c :: t') p
            ((List.mem_tails _ _).mpr (List.suffix_refl p)) hp hpe
          exact hm (List.isPrefixOf_iff_prefix.mpr this)
        · refine ih t' ?_ hX
          simp only [List.length_cons] at hlen
          omega

/-- `goRepl p r` cannot create an occurrence of a foreign pattern `q` that was
absent from the input, under the corresponding junction conditions. -/
theorem goReplKeepsOut (p r q : Str) (hp : p ≠ []) (hq : q ≠ [])
    (h1 : ∀ v ∈ q.tails, v ≠ [] → ¬ r <+: v)
    (h2 : ∀ v ∈ q.tails, v ≠ [] → v <+: r → v <+: p)
    (h3 : ¬ q <:+: r)
    (h4 : ∀ u ∈ r.tails, u ≠ [] → u <+: q → u = q) :
    ∀ fuel t, ¬ q <:+: t → ¬ q <:+: goRepl p r fuel t := by
  intro fuel
  induction fuel with
  | zero =>
    intro t hnc h
    exact hnc (by simpa [goRepl] using h)
  | succ n ih =>
    intro t hnc h
    match t with
    | [] => exact hq (by simpa [goRepl] using h)
    | c :: t' =>
      by_cases hm : p.isPrefixOf (c :: t') = true
      · rw [goRepl, if_pos hm] at h
        rcases infixAppendCases hq h with hr | hX | ⟨u, v, hEq, hu0, hv0, hu, _⟩
        · exact h3 hr
        · refine ih _ ?_ hX
          intro hin
          exact hnc (hin.trans ((List.drop_suffix _ _).isInfix))
        · have hupfx : u <+: q := hEq ▸ List.prefix_append u v
          have huq := h4 u ((List.mem_tails _ _).mpr hu) hu0 hupfx
          subst huq
          exact hv0 (List.self_eq_append_right.mp hEq)
      · rw [goRepl, if_neg hm] at h
        rcases List.infix_cons_iff.mp h with hpre | hX
        · have hpe : q <+: goRepl p r (n + 1) (c :: t') := by
            rw [goRepl, if_neg hm]
            exact hpre
          have := goReplPfxInv p r q hp h1 h2 (n + 1) (c :: t') q
            ((List.mem_tails _ _).mpr (List.suffix_refl q)) hq hpe
          exact hnc this.isInfix
        · refine ih t' ?_ hX
          intro hin
          exact hnc (hin.trans (List.suffix_cons c t').isInfix)

/-- `goRepl` is the identity when the pattern does not occur in the input. -/
theorem goReplIdOf (p r : Str) : ∀ fuel t, ¬ p <:+: t → goRepl p r fuel t = t := by
  intro fuel
  induction fuel with
  | zero => intro t _; rfl
  | succ n ih =>
    intro t h
    match t with
    | [] => rfl
    | c :: t' =>
      have hm : ¬ p.isPrefixOf (c :: t') = true := fun hx =>
        h (List.isPrefixOf_iff_prefix.mp hx).isInfix
      rw [goRepl, if_neg hm]
      have hn : ¬ p <:+: t' := fun hx => h (hx.trans (List.suffix_cons c t').isInfix)
      rw [ih t' hn]

/-- `goReplFirst` is the identity when the pattern does not occur. -/
theorem goReplFirstIdOf (p r : Str) :
    ∀ fuel t, ¬ p <:+: t → goReplFirst p r fuel t = t := by
  intro fuel
  induction fuel with
  | zero => intro t _; rfl
  | succ n ih =>
    intro t h
    match t with
    | [] => rfl
    | c :: t' =>
      have hm : ¬ p.isPrefixOf (c :: t') = true := fun hx =>
        h (List.isPrefixOf_iff_prefix.mp hx).isInfix
      rw [goReplFirst, if_neg hm]
      rw [ih t' (fun hx => h (hx.trans (List.suffix_cons c t').isInfix))]

/-- The stdlib patch is the identity when `stdlib` does not occur at all. -/
theorem stdlibGoIdOf : ∀ fuel t, ¬ stdlibWord <:+: t → stdlibGo fuel t = t := by
  intro fuel
  induction fuel with
  | zero => intro t _; rfl
  | succ n ih =>
    intro t h
    match t with
    | [] => rfl
    | c :: t' =>
      have hm : ¬ stdlibWord.isPrefixOf (c :: t') = true := fun hx =>
        h (List.isPrefixOf_iff_prefix.mp hx).isInfix
      rw [stdlibGo, if_neg hm]
      rw [ih t' (fun hx => h (hx.trans (List.suffix_cons c t').isInfix))]

/-- Claim C9: the HTML-comment disambiguation rule (lines 130-131: `<!--` →
`< !--` and `-->` → `-- >`) is idempotent: applying it twice yields the same
result as applying it once, for every text.  The first pass leaves no
occurrence of either pattern (the inserted space breaks them and the
replacements cannot recombine with surrounding text into a new occurrence),
so the second pass is the identity. -/
theorem c9_htmlCommentIdem (s : Str) :
    htmlCommentStep (htmlCommentStep s) = htmlCommentStep s := by
  have hA1 : ¬ htmlOpenPat <:+: htmlOpenStep s :=
    goReplNoOccur htmlOpenPat htmlOpenRepl (by decide) (by decide) (by decide)
      (by decide) (by decide) (s.length + 1) s (Nat.le_succ _)
  have hA2 : ¬ htmlOpenPat <:+: htmlCommentStep s :=
    goReplKeepsOut htmlClosePat htmlCloseRepl htmlOpenPat (by decide) (by decide)
      (by decide) (by decide) (by decide) (by decide)
      ((htmlOpenStep s).length + 1) (htmlOpenStep s) hA1
  have hB1 : ¬ htmlClosePat <:+: htmlCommentStep s :=
    goReplNoOccur htmlClosePat htmlCloseRepl (by decide) (by decide) (by decide)
      (by decide) (by decide) ((htmlOpenStep s).length + 1) (htmlOpenStep s)
      (Nat.le_succ _)
  show htmlCloseStep (htmlOpenStep (htmlCommentStep s)) = htmlCommentStep s
  rw [htmlOpenStep, replaceAllL, goReplIdOf _ _ _ _ hA2,
    htmlCloseStep, replaceAllL, goReplIdOf _ _ _ _ hB1]

/-- Claim C1: `postProcess` raises the empty-bundle failure iff its input is a
string whose text, after trimming, optional comment stripping and the ordered
substitutions (`preWrap`, lines 103-136), has zero length (the check of lines
138-140); `postProcess(null, opts)` returns null immediately without raising,
and `postProcess("", opts)` raises. -/
theorem c1_emptyBundleErrorIff (opts : PPOptions) (s : Str) :
    postProcess none opts = Except.ok none ∧
    (postProcess (some s) opts = Except.error emptyBundleMsg ↔
      (preWrap opts s).length = 0) ∧
    postProcess (some []) opts = Except.error emptyBundleMsg := by
  refine ⟨rfl, ?_, ?_⟩
  · show (if (preWrap opts s).length = 0 then
          (Except.error emptyBundleMsg : Except Str (Option Str))
        else Except.ok (some (postWrap (preWrap opts s)))) =
        Except.error emptyBundleMsg ↔ (preWrap opts s).length = 0
    by_cases h : (preWrap opts s).length = 0
    · simp [h]
    · simp [h]
  · have hpre : preWrap opts [] = [] := by
      obtain ⟨b⟩ := opts
      cases b <;> rfl
    show (if (preWrap opts []).length = 0 then
          (Except.error emptyBundleMsg : Except Str (Option Str))
        else Except.ok (some (postWrap (preWrap opts [])))) = Except.error emptyBundleMsg
    rw [hpre]
    rfl

def inDoStuff : Str := "doStuff();".toList

def outDoStuff : Str := "() => (\ndoStuff()\n)".toList

def inParenPair : Str := "(a,b)".toList

def outParenPair : Str := "() => (a,b)".toList

/-- Claim C2: for every text, the wrapping step (lines 142-148) first drops a
single trailing `;` if present, then prefixes `() => ` when the
semicolon-trimmed text both starts with `(` and ends with `)`, and otherwise
produces `() => (\n<text>\n)`; concretely, `postProcess("doStuff();")` yields
`() => (\ndoStuff()\n)` and `postProcess("(a,b)")` yields `() => (a,b)`.
A double trailing semicolon loses only one `;`. -/
theorem c2_wrapScenarios (t : Str) :
    wrapStep t =
      (let u := if endsWithChar ';' t then t.dropLast else t
       if startsWithChar '(' u && endsWithChar ')' u then arrowParen ++ u
       else arrowOpen ++ u ++ arrowClose) ∧
    postProcess (some inDoStuff) ⟨false⟩ = Except.ok (some outDoStuff) ∧
    postProcess (some inParenPair) ⟨false⟩ = Except.ok (some outParenPair) ∧
    wrapStep ("doStuff();;".toList) = "() => (\ndoStuff();\n)".toList ∧
    wrapStep ("(a,b);".toList) = "() => (a,b)".toList :=
  ⟨rfl, rfl, rfl, rfl, rfl⟩

def inEvalChain : Str := "foo.eval(bar)".toList

def outEvalChain : Str := "() => (1, foo.eval)(bar)".toList

/-- Claim C3: the line 117-120 regex rewrites each occurrence of a dotted
property chain ending in `.eval` with a nested-paren-free argument list into
the indirect-call form; concretely `postProcess("foo.eval(bar)")` wraps to
`() => (1, foo.eval)(bar)`, a two-segment chain `a.b.eval(x, y)` becomes
`(1, a.b.eval)(x, y)`, and both of two occurrences in one text are rewritten. -/
theorem c3_evalChainRewrite :
    postProcess (some inEvalChain) ⟨false⟩ = Except.ok (some outEvalChain) ∧
    evalChainStep ("a.b.eval(x, y)".toList) = "(1, a.b.eval)(x, y)".toList ∧
    evalChainStep ("p.eval(1);q.eval(2)".toList) =
      "(1, p.eval)(1);(1, q.eval)(2)".toList :=
  ⟨rfl, rfl, rfl⟩

def inComment : Str := "foo();\n// eval(x)\nbar()".toList

def outCommentStripped : Str := "() => (\nfoo();\n\nbar()\n)".toList

def outCommentKept : Str := "() => (\nfoo();\n// (1, eval)(x)\nbar()\n)".toList

/-- Claim C4: comment stripping (line 109-111) runs before the eval-rewrite
substitutions (lines 117-125).  For an input containing a comment whose text
contains `eval(x)`: with `stripComments: true` the final output contains no
trace of that text (not even the substring `eval`), while with
`stripComments: false` the eval pattern inside the comment text is still
rewritten to the indirect-call form `(1, eval)(x)`. -/
theorem c4_commentOrderSensitivity :
    postProcess (some inComment) ⟨true⟩ = Except.ok (some outCommentStripped) ∧
    containsSub evalWord outCommentStripped = false ∧
    postProcess (some inComment) ⟨false⟩ = Except.ok (some outCommentKept) ∧
    containsSub ("(1, eval)(x)".toList) outCommentKept = true :=
  ⟨rfl, by decide, rfl, by decide⟩

/-- Counterexample to claim C5: the claim says text containing `stdlib`
followed by any character other than a literal dot is left unchanged by the
stdlib patch, but line 159 uses the regex `/stdlib./g` with an UNESCAPED dot,
so `stdlibX` is deleted as well. -/
theorem c5_stdlibCounterexample :
    stdlibStep ("stdlibX".toList) ≠ "stdlibX".toList := by decide

/-- Claim C5 as amended: the stdlib patch deletes every occurrence of `stdlib`
followed by any single character other than a line terminator (the regex dot),
including but not limited to the literal `stdlib.`; text in which `stdlib`
does not occur at all is unchanged, as is `stdlib` at the end of the text or
right before a newline. -/
theorem c5_stdlibAmended :
    (∀ s : Str, ¬ stdlibWord <:+: s → stdlibStep s = s) ∧
    stdlibStep ("stdlib.foo".toList) = "foo".toList ∧
    stdlibStep ("stdlibX".toList) = [] ∧
    stdlibStep ("stdlib".toList) = "stdlib".toList ∧
    stdlibStep ("stdlib\nfoo".toList) = "stdlib\nfoo".toList := by
  refine ⟨?_, rfl, rfl, rfl, rfl⟩
  intro s h
  exact stdlibGoIdOf (s.length + 1) s h

/-- Witness for `c5_stdlibAmended`: its universally quantified part applied at
a concrete text free of `stdlib`. -/
theorem c5_stdlibAmendedWitness : stdlibStep ("hello()".toList) = "hello()".toList :=
  c5_stdlibAmended.1 ("hello()".toList) (by decide)

/-- Counterexample to claim C6: the claim says EVERY occurrence of the literal
`setImmediate(() => resultCb(result))` is replaced, but line 162 calls
`String.prototype.replace` with a STRING pattern, which replaces only the
first occurrence — on an input that is the pattern twice in a row, the
second occurrence survives in the output. -/
theorem c6_setImmediateCounterexample :
    containsSub setImmediatePat
      (setImmediateStep (setImmediatePat ++ setImmediatePat)) = true := by decide

/-- Claim C6 as amended: the setImmediate patch replaces only the FIRST
occurrence of the literal substring `setImmediate(() => resultCb(result))`
with `resultCb(result)` (JS string-pattern `replace`); text without an
occurrence is unchanged. -/
theorem c6_setImmediateAmended :
    setImmediateStep (setImmediatePat ++ (";".toList ++ setImmediatePat)) =
      setImmediateRepl ++ (";".toList ++ setImmediatePat) ∧
    (∀ s : Str, ¬ setImmediatePat <:+: s → setImmediateStep s = s) := by
  refine ⟨rfl, ?_⟩
  intro s h
  exact goReplFirstIdOf setImmediatePat setImmediateRepl (s.length + 1) s h

/-- Witness for `c6_setImmediateAmended`: its universally quantified part at a
concrete text without the pattern. -/
theorem c6_setImmediateAmendedWitness :
    setImmediateStep ("done()".toList) = "done()".toList :=
  c6_setImmediateAmended.2 ("done()".toList) (by decide)

/-- Counterexample to claim C7: the claim says only TOKEN occurrences of
`self` are replaced, but line 156 uses `/self/g` with no word-boundary
anchors, so the `self` inside `myself` is rewritten too. -/
theorem c7_selfCounterexample :
    selfStep ("myself".toList) = "mywindow".toList ∧
    selfStep ("myself".toList) ≠ "myself".toList :=
  ⟨rfl, by decide⟩

/-- Claim C7 as amended: after wrapping, every occurrence of the SUBSTRING
`self` is replaced with `window`, with no token-boundary awareness (so
`myself` becomes `mywindow`); concretely, input containing
`self.postMessage(x)` yields output containing `window.postMessage(x)`, and
text without the substring is unchanged. -/
theorem c7_selfAmended :
    postProcess (some ("self.postMessage(x)".toList)) ⟨false⟩ =
      Except.ok (some ("() => (\nwindow.postMessage(x)\n)".toList)) ∧
    selfStep ("a myself b".toList) = "a mywindow b".toList ∧
    (∀ s : Str, ¬ selfPat <:+: s → selfStep s = s) := by
  refine ⟨rfl, rfl, ?_⟩
  intro s h
  exact goReplIdOf selfPat windowWord (s.length + 1) s h

/-- Witness for `c7_selfAmended`: its universally quantified part at a
concrete text without the substring `self`. -/
theorem c7_selfAmendedWitness : selfStep ("window.x".toList) = "window.x".toList :=
  c7_selfAmended.2.2 ("window.x".toList) (by decide)

/-- Counterexample to claim C8: when the bundle producer invokes its callback
with an error, the call site (line 36) is `writeError('Build error:', err)`,
which passes NO destination path even though `dest` is in scope, so no unlink
of the destination file is attempted — contradicting "the destination file,
if present, is removed". -/
theorem c8_buildErrorCounterexample :
    (bundleOnBuildError ("out.js".toList) ("boom".toList) false).unlinkAttempted = none :=
  rfl

/-- Claim C8 as amended: on a build error the error is reported with a
`Build error: ` prefix (and the process exits unless watching), but no
destination-file removal is attempted, because the build-error call site
passes no destination path to `writeError`; only the write-error call site
(line 52) passes the destination, and there the unlink is attempted whenever
the path is non-empty. -/
theorem c8_buildErrorAmended (dest err msg : Str) (watching : Bool) :
    bundleOnBuildError dest err watching =
      { loggedMessage := "Build error: ".toList ++ err
        loggedErr := none
        unlinkAttempted := none
        exits := !watching } ∧
    (bundleOnWriteError dest msg err watching).loggedMessage =
      "Write error: ".toList ++ msg ∧
    (bundleOnWriteError dest msg err watching).unlinkAttempted =
      (if dest.isEmpty then none else some dest) :=
  ⟨rfl, rfl, rfl⟩

/-- Claim C10: the empty-length check (line 138) runs before the
trailing-semicolon trim of the wrapping step (line 143), so an input that
becomes empty only after that trim is not rejected:
`postProcess(";", {stripComments: false})` returns `() => (\n\n)` and does
not raise the empty-bundle error. -/
theorem c10_semicolonNotRejected :
    postProcess (some (";".toList)) ⟨false⟩ =
      Except.ok (some ("() => (\n\n)".toList)) :=
  rfl

